import Mathlib

/-!
Verification development for the de-identification engine of a research PACS.
The definitions below are shallow embeddings of the Python source under
`src/python/` (module and function names are kept wherever Lean permits).
-/

/-! ## Mapping store (`research_pacs/shared/database.py`, class `DBDicomMapping`)

The table `rpacs_dicom_mapping` has columns
`(value_type, old_value, scope_type, scope_value, new_value)` with primary key
on the first four.  `add_or_get_mapping` executes
`INSERT ... ON CONFLICT (value_type, old_value, scope_type, scope_value)
DO UPDATE SET old_value = excluded.old_value RETURNING new_value`:
on a fresh key the row is inserted and the candidate `new_value` returned; on a
conflicting key the existing row's `old_value` is overwritten with the incoming
`old_value` (identical to its current value, since `old_value` is part of the
conflicting key) and the row's `new_value` is returned. -/

structure MappingEntry where
  value_type : String
  old_value : String
  scope_type : String
  scope_value : String
  new_value : String

abbrev MappingStore := List MappingEntry

/-- Primary-key comparison of a row against a key. -/
def keyMatches (e : MappingEntry) (vt ov st sv : String) : Bool :=
  e.value_type == vt && e.old_value == ov && e.scope_type == st && e.scope_value == sv

/-- `new_value` stored under a key, if any (first row in table order). -/
def lookupMapping (store : MappingStore) (vt ov st sv : String) : Option String :=
  (store.find? (fun e => keyMatches e vt ov st sv)).map (fun e => e.new_value)

/-- Embedding of `DBDicomMapping.add_or_get_mapping` (argument order of the
source: value_type, old_value, new_value, scope_type, scope_value).  Returns
the value of the `RETURNING new_value` clause together with the table state
after the statement. -/
def add_or_get_mapping (store : MappingStore) (vt ov nv st sv : String) :
    String × MappingStore :=
  match store.find? (fun e => keyMatches e vt ov st sv) with
  | some e =>
      (e.new_value,
       store.map (fun r =>
         if keyMatches r vt ov st sv then
           MappingEntry.mk r.value_type ov r.scope_type r.scope_value r.new_value
         else r))
  | none => (nv, store ++ [MappingEntry.mk vt ov st sv nv])

/-! ## Reuse scopes (`research_pacs/de_identifier/dicom.py`,
`_get_new_value_from_mapping`) -/

/-- The five validated values of `ReuseMapping`
(see `VALID_REUSE_VALUE` in `_validate_and_adapt_config_file`). -/
inductive Reuse where
  | Always
  | SamePatient
  | SameStudy
  | SameSeries
  | SameInstance
deriving DecidableEq

/-- The identifier elements of the loaded DICOM file that the reuse scopes
read (`self.dicom.PatientID`, `.StudyInstanceUID`, `.SeriesInstanceUID`,
`.SOPInstanceUID`). -/
structure DicomIds where
  PatientID : String
  StudyInstanceUID : String
  SeriesInstanceUID : String
  SOPInstanceUID : String

/-- The `(scope_type, scope_value)` pair computed by the `if`/`elif`/`else`
chain of `_get_new_value_from_mapping`.  The final `else` branch (reached for
`SameInstance`, the only remaining validated value) sets
`scope_type = 'study'` while pairing it with `SOPInstanceUID`, exactly as the
source does.  `oldPatientId` models `_old_patient_id`
(`_old_patient_id if _old_patient_id != None else self.dicom.PatientID`). -/
def reuseScope (r : Reuse) (oldPatientId : Option String) (ids : DicomIds) :
    String × String :=
  match r with
  | Reuse.Always => ("always", "always")
  | Reuse.SamePatient =>
      ("patient", match oldPatientId with | some v => v | none => ids.PatientID)
  | Reuse.SameStudy => ("study", ids.StudyInstanceUID)
  | Reuse.SameSeries => ("series", ids.SeriesInstanceUID)
  | Reuse.SameInstance => ("study", ids.SOPInstanceUID)

/-- Embedding of `_get_new_value_from_mapping`.  `reuse = none` models a
transformation dict without a `ReuseMapping` attribute.  The result pairs the
returned value (or the raised exception) with the mapping-table state. -/
def get_new_value_from_mapping (reuse : Option Reuse) (oldPatientId : Option String)
    (ids : DicomIds) (value_type old_value new_value : String)
    (store : MappingStore) : Except String String × MappingStore :=
  match reuse with
  | none => (Except.ok new_value, store)
  | some r =>
      let sc := reuseScope r oldPatientId ids
      if sc.2 = "" then
        (Except.error "The scope value for ReuseMapping must not be empty", store)
      else
        let res := add_or_get_mapping store value_type old_value new_value sc.1 sc.2
        (Except.ok res.1, res.2)

/-! ## RandomizeText (`research_pacs/de_identifier/dicom.py`, `randomize_text`)

The config validator guarantees `t['Split']` is either absent (then set to the
Python `None`) or a `str`.  The source nevertheless tests `t['Split'] is True`
(identity with the boolean `True`) both when splitting and when rejoining, so
the value of `Split` is modelled as a Python value that can be `None`, a
string, or a boolean, with `isTrue` the embedding of `... is True`. -/

inductive PySplit where
  | pynone
  | str (s : String)
  | bool (b : Bool)

/-- Python `x is True` for an `x` that is `None`, a `str`, or a `bool`. -/
def PySplit.isTrue : PySplit → Bool
  | PySplit.bool true => true
  | _ => false

/-- The underlying string of a `Split` value (only read under `isTrue`). -/
def PySplit.strVal : PySplit → String
  | PySplit.str s => s
  | _ => ""

/-- The per-segment loop of `randomize_text`: an empty segment stays empty; a
non-empty segment is lower-cased when `IgnoreCase` is true, a fresh random
8-character string is drawn (modelled by consuming the head of `rands`), and
the replacement goes through `_get_new_value_from_mapping` with
`value_type = 'DATETIME'` (as in the source). -/
def randomize_segments (reuse : Option Reuse) (oldPid : Option String)
    (ids : DicomIds) (ignoreCase : Bool) :
    List String → List String → MappingStore →
    Except String (List String × MappingStore)
  | [], _, store => Except.ok ([], store)
  | seg :: rest, rands, store =>
    if seg = "" then
      match randomize_segments reuse oldPid ids ignoreCase rest rands store with
      | Except.error e => Except.error e
      | Except.ok (l, st) => Except.ok ("" :: l, st)
    else
      let seg2 := if ignoreCase then seg.toLower else seg
      let rv := rands.headD ""
      match get_new_value_from_mapping reuse oldPid ids "DATETIME" seg2 rv store with
      | (Except.error e, _) => Except.error e
      | (Except.ok nv, store2) =>
        match randomize_segments reuse oldPid ids ignoreCase rest rands.tail store2 with
        | Except.error e => Except.error e
        | Except.ok (l, st) => Except.ok (nv :: l, st)

/-- Embedding of `randomize_text` for one element item value:
`old_value_after_split = old.split(Split) if Split is True else [old]`,
segment replacement, then
`final = Split.join(parts) if Split is True else parts[0]`. -/
def randomize_text (split : PySplit) (ignoreCase : Bool) (reuse : Option Reuse)
    (oldPid : Option String) (ids : DicomIds) (rands : List String)
    (item_value : String) (store : MappingStore) :
    Except String (String × MappingStore) :=
  let old_before := item_value
  let old_after :=
    if split.isTrue then old_before.splitOn split.strVal else [old_before]
  match randomize_segments reuse oldPid ids ignoreCase old_after rands store with
  | Except.error e => Except.error e
  | Except.ok (parts, store2) =>
      let final :=
        if split.isTrue then String.intercalate split.strVal parts
        else parts.headD ""
      Except.ok (final, store2)

/-! ### Helper lemmas for the mapping store -/

lemma keyMatches_old_value {e : MappingEntry} {vt ov st sv : String}
    (h : keyMatches e vt ov st sv = true) : e.old_value = ov := by
  unfold keyMatches at h
  simp only [Bool.and_eq_true, beq_iff_eq] at h
  exact h.1.1.2

lemma map_self_of {α : Type} {l : List α} {f : α → α}
    (h : ∀ a ∈ l, f a = a) : l.map f = l := by
  induction l with
  | nil => rfl
  | cons x xs ih =>
      simp only [List.map_cons, h x (by simp)]
      rw [ih (fun a ha => h a (by simp [ha]))]

/-- C3.  The mapping store is monotonic: `add_or_get_mapping` on a key already
present leaves the table unchanged (the `DO UPDATE SET old_value =
excluded.old_value` writes back the very value the conflicting row already
holds) and returns the previously stored `new_value`; on an absent key the
candidate row is inserted and the candidate returned. -/
theorem addOrGetMapping_monotone (store : MappingStore) (vt ov nv st sv : String) :
    add_or_get_mapping store vt ov nv st sv =
      match lookupMapping store vt ov st sv with
      | some prev => (prev, store)
      | none => (nv, store ++ [MappingEntry.mk vt ov st sv nv]) := by
  unfold add_or_get_mapping lookupMapping
  cases hfind : store.find? (fun e => keyMatches e vt ov st sv) with
  | none => simp
  | some e =>
      simp only [Option.map_some]
      have hid : store.map (fun r =>
          if keyMatches r vt ov st sv then
            MappingEntry.mk r.value_type ov r.scope_type r.scope_value r.new_value
          else r) = store := by
        apply map_self_of
        intro a _
        by_cases hk : keyMatches a vt ov st sv = true
        · have hov := keyMatches_old_value hk
          cases a
          simp only [hk, if_pos]
          simp_all
        · simp [hk]
      rw [hid]
      rfl

/-- C1 (code bug witness).  Evaluating `_get_new_value_from_mapping` with
`ReuseMapping = 'SameInstance'` on an empty store: the row inserted into the
mapping table carries `scope_type = "study"` (paired with the instance's
`SOPInstanceUID`), not the `"instance"` scope type the specification's table
prescribes. -/
theorem sameInstance_scope_type_is_study :
    get_new_value_from_mapping (some Reuse.SameInstance) Option.none
      (DicomIds.mk "pat1" "study1" "series1" "sop1") "TEXT" "old" "new" [] =
    (Except.ok "new", [MappingEntry.mk "TEXT" "old" "study" "sop1" "new"]) := rfl

/-- C2 (code bug witness).  `randomize_text` with a configured non-empty
`Split = ","` and value `"a,b"`: because the source tests `t['Split'] is True`
(never true for a string), the value is *not* split on `","`; the whole value
is replaced by the single first random string, yielding `"AAAAAAAA"` instead
of the `"AAAAAAAA,BBBBBBBB"` that splitting into `"a"` and `"b"` would give. -/
theorem randomizeText_split_ignored_eval :
    randomize_text (PySplit.str ",") false Option.none Option.none
      (DicomIds.mk "p" "st" "se" "so") ["AAAAAAAA", "BBBBBBBB"] "a,b" [] =
    Except.ok ("AAAAAAAA", []) := rfl

/-- For any validated `Split` (a string or absent), `randomize_text` behaves
identically to an unconfigured `Split`: the `is True` test makes the split and
rejoin branches unreachable. -/
lemma randomize_text_str_eq_pynone (s : String) (ic : Bool) (reuse : Option Reuse)
    (oldPid : Option String) (ids : DicomIds) (rands : List String)
    (v : String) (store : MappingStore) :
    randomize_text (PySplit.str s) ic reuse oldPid ids rands v store =
    randomize_text PySplit.pynone ic reuse oldPid ids rands v store := rfl

/-- C8.  For every non-`always` reuse scope whose derived scope value is the
empty string, `_get_new_value_from_mapping` raises (with the source's message)
and the mapping table is left untouched: the check `scope_value == ''` fires
before `add_or_get_mapping` is ever called. -/
theorem emptyScopeValue_raises (r : Reuse) (oldPid : Option String)
    (ids : DicomIds) (vt ov nv : String) (store : MappingStore)
    (_hr : r ≠ Reuse.Always) (hs : (reuseScope r oldPid ids).2 = "") :
    get_new_value_from_mapping (some r) oldPid ids vt ov nv store =
      (Except.error "The scope value for ReuseMapping must not be empty", store) := by
  unfold get_new_value_from_mapping
  simp [hs]

/-- Witness for C8: `SameStudy` with an empty `StudyInstanceUID`. -/
theorem emptyScopeValue_raises_witness :
    get_new_value_from_mapping (some Reuse.SameStudy) Option.none
      (DicomIds.mk "p" "" "se" "so") "TEXT" "o" "n" [] =
      (Except.error "The scope value for ReuseMapping must not be empty", []) :=
  emptyScopeValue_raises Reuse.SameStudy Option.none
    (DicomIds.mk "p" "" "se" "so") "TEXT" "o" "n" [] (by decide) rfl

/-! ## Scope rules (`research_pacs/de_identifier/dicom.py`,
`_do_labels_match_scope_rules` and `_get_labels_for_category`)

A scope rule dict may carry `Labels`, `ExceptLabels`, `Categories`,
`ExceptCategories` (each a list of strings after validation; an absent
attribute is modelled by `none`).  The config's `Categories` section is a list
of `(Name, Labels)` pairs. -/

structure ScopeRules where
  Labels : Option (List String)
  ExceptLabels : Option (List String)
  Categories : Option (List String)
  ExceptCategories : Option (List String)

/-- Embedding of `_get_labels_for_category`: first category with the given
name.  (On a missing name the source falls off the function and returns the
Python `None`; validation guarantees every referenced category exists, and the
empty list is used as the total default here.) -/
def get_labels_for_category (cats : List (String × List String)) (name : String) :
    List String :=
  match cats with
  | [] => []
  | (n, ls) :: rest => if n = name then ls else get_labels_for_category rest name

/-- `included_labels`: `rules['Labels']` plus the labels of every category in
`rules['Categories']`, accumulated with `+=` in order. -/
def includedLabelsOf (cats : List (String × List String)) (rules : ScopeRules) :
    List String :=
  (match rules.Categories with | some v => v | none => []).foldl
    (fun acc c => acc ++ get_labels_for_category cats c)
    (match rules.Labels with | some v => v | none => [])

/-- `excluded_labels`: `rules['ExceptLabels']` plus the labels of every
category in `rules['ExceptCategories']`. -/
def excludedLabelsOf (cats : List (String × List String)) (rules : ScopeRules) :
    List String :=
  (match rules.ExceptCategories with | some v => v | none => []).foldl
    (fun acc c => acc ++ get_labels_for_category cats c)
    (match rules.ExceptLabels with | some v => v | none => [])

/-- Embedding of `_do_labels_match_scope_rules`: the first loop returns
`False` as soon as any label is excluded; the second returns `True` as soon as
any label is included; otherwise `False`. -/
def do_labels_match_scope_rules (cats : List (String × List String))
    (labels : List String) (rules : ScopeRules) : Bool :=
  if labels.any (fun l => (excludedLabelsOf cats rules).contains l) then false
  else labels.any (fun l => (includedLabelsOf cats rules).contains l)

/-- C4.  Exclusion dominates: if any label of `L` lies in the union of
`ExceptLabels` and the labels of `ExceptCategories`, the rule evaluates to
`false` no matter what the included labels and categories are. -/
theorem scopeRules_exclusion_dominates (cats : List (String × List String))
    (labels : List String) (rules : ScopeRules)
    (h : ∃ l, l ∈ labels ∧ l ∈ excludedLabelsOf cats rules) :
    do_labels_match_scope_rules cats labels rules = false := by
  obtain ⟨l, hl, hex⟩ := h
  unfold do_labels_match_scope_rules
  have hany : labels.any (fun l => (excludedLabelsOf cats rules).contains l) = true := by
    refine List.any_eq_true.mpr ⟨l, hl, ?_⟩
    exact List.elem_eq_true_of_mem hex
  exact if_pos hany

/-- Witness for C4: label `"A"` is both included and excluded; the rule
nevertheless fails. -/
theorem scopeRules_exclusion_dominates_witness :
    do_labels_match_scope_rules [] ["A"]
      (ScopeRules.mk (some ["A"]) (some ["A"]) Option.none Option.none) = false :=
  scopeRules_exclusion_dominates [] ["A"]
    (ScopeRules.mk (some ["A"]) (some ["A"]) Option.none Option.none)
    ⟨"A", by simp, by simp [excludedLabelsOf]⟩

/-! ## Tag-path patterns (`research_pacs/de_identifier/dicom_tag_path_pattern.py`)

Patterns are strings, modelled as `List Char`.  The four step-pattern regexes:
`TAG_PATH_PATTERN_KEYWORD = [A-Za-z0-9*]+`,
`TAG_PATH_PATERN_NUMBER = [0-9A-FX@]\x7b8\x7d`,
`TAG_PATH_PATTERN_PRIVATE_CREATOR =
[0-9A-FX@]\x7b4\x7d \x7b ... \x7d [0-9A-FX@]\x7b2\x7d` (creator body is one or
more non-brace characters), and `TAG_PATH_PATTERN_VR = two upper-case letters
in braces`. -/

/-- A non-sequence data element, with the pieces `_elem_match_tag_pattern`
reads: `elem.keyword` (empty when the tag has no dictionary keyword), the
16-bit `elem.tag.group` and `elem.tag.elem` numbers, `elem.private_creator`,
and `elem.VR`. -/
structure PElem where
  keyword : List Char
  group : Nat
  elemNumber : Nat
  private_creator : Option (List Char)
  vr : List Char

instance : Inhabited PElem := ⟨⟨[], 0, 0, Option.none, []⟩⟩

/-- Upper-cased hexadecimal digits of `n`, as Python `hex(n)[2:].upper()`. -/
def hexUpperDigits (n : Nat) : List Char := (Nat.toDigits 16 n).map Char.toUpper

/-- Python `str.zfill(4)` on a digit list. -/
def zfill4 (l : List Char) : List Char := List.replicate (4 - l.length) '0' ++ l

/-- Embedding of `_get_elem_tag_hexa`: the canonical 8-hex-digit upper-case
tag string of a data element. -/
def get_elem_tag_hexa (e : PElem) : List Char :=
  zfill4 (hexUpperDigits e.group) ++ zfill4 (hexUpperDigits e.elemNumber)

/-- Character class `[0-9A-FX@]`. -/
def isHexPatChar (c : Char) : Bool :=
  c.isDigit || ('A' ≤ c && c ≤ 'F') || c == 'X' || c == '@'

/-- Character class `[A-Za-z0-9*]`. -/
def isKeywordChar (c : Char) : Bool := c.isAlphanum || c == '*'

/-- `re.fullmatch(TAG_PATH_PATTERN_KEYWORD, p)`. -/
def isKeywordPattern (p : List Char) : Bool := !p.isEmpty && p.all isKeywordChar

/-- `re.fullmatch(TAG_PATH_PATERN_NUMBER, p)`. -/
def isNumberPattern (p : List Char) : Bool := p.length == 8 && p.all isHexPatChar

/-- Scans the private-creator body: consumes creator characters up to the
first closing brace, which must be followed by exactly two `[0-9A-FX@]`
characters ending the pattern. -/
def privScan : List Char → Bool
  | [] => false
  | '\x7d' :: tail =>
      match tail with
      | [b1, b2] => isHexPatChar b1 && isHexPatChar b2
      | _ => false
  | _ :: tail => privScan tail

/-- `re.fullmatch(TAG_PATH_PATTERN_PRIVATE_CREATOR, p)`. -/
def isPrivateCreatorPattern (p : List Char) : Bool :=
  match p with
  | a1 :: a2 :: a3 :: a4 :: '\x7b' :: c1 :: rest =>
      isHexPatChar a1 && isHexPatChar a2 && isHexPatChar a3 && isHexPatChar a4 &&
      !(c1 == '\x7d') && privScan (c1 :: rest)
  | _ => false

/-- `re.fullmatch(TAG_PATH_PATTERN_VR, p)`. -/
def isVRPattern (p : List Char) : Bool :=
  match p with
  | ['\x7b', a, b, '\x7d'] => a.isUpper && b.isUpper
  | _ => false

/-- Full-match of the regex `re.escape(p).replace('\x5c*', '.*')` against `s`:
every pattern character is literal except `*`, which matches any (possibly
empty) run of characters. -/
def globMatch : List Char → List Char → Bool
  | [], s => s.isEmpty
  | p :: ps, s =>
    if p = '*' then
      globMatch ps s ||
        (match s with
         | [] => false
         | _ :: ss => globMatch (p :: ps) ss)
    else
      match s with
      | [] => false
      | c :: ss => p == c && globMatch ps ss
termination_by p s => (s.length, p.length)

/-- Embedding of `_tag_hexa_match_pattern`: character-by-character comparison
driven by the tag string; `X` matches any character, a literal matches itself,
`@` matches the odd hex digits. -/
def tag_hexa_match_pattern : List Char → List Char → Bool
  | [], _ => true
  | _ :: _, [] => false
  | t :: ts, p :: ps =>
    if p = 'X' then tag_hexa_match_pattern ts ps
    else if p = t then tag_hexa_match_pattern ts ps
    else if p = '@' &&
        (t == '1' || t == '3' || t == '5' || t == '7' || t == '9' ||
         t == 'B' || t == 'D' || t == 'F') then tag_hexa_match_pattern ts ps
    else false

/-- Python slice `l[-n:]`. -/
def takeLast (n : Nat) (l : List Char) : List Char := l.drop (l.length - n)

/-- Python slice `p[5:-3]` (the creator name of a private-creator pattern). -/
def sliceCreator (p : List Char) : List Char := (p.take (p.length - 3)).drop 5

/-- Python slice `p[1:-1]` (the VR of a `\x7bVR\x7d` pattern). -/
def sliceVR (p : List Char) : List Char := (p.take (p.length - 1)).drop 1

/-- Embedding of `_elem_match_tag_pattern`: the four sequential `return True`
checks of the source become a disjunction (the checks have no side effects).
Python truthiness of `elem.keyword` and `elem.private_creator` makes the empty
string falsy. -/
def elem_match_tag_pattern (e : PElem) (pat : List Char) : Bool :=
  ((!e.keyword.isEmpty) && isKeywordPattern pat && globMatch pat e.keyword)
  || (isNumberPattern pat && tag_hexa_match_pattern (get_elem_tag_hexa e) pat)
  || ((match e.private_creator with
       | some pc => !pc.isEmpty
       | none => false) && isPrivateCreatorPattern pat
      && tag_hexa_match_pattern ((get_elem_tag_hexa e).take 4) (pat.take 4)
      && tag_hexa_match_pattern (takeLast 2 (get_elem_tag_hexa e)) (takeLast 2 pat)
      && ((match e.private_creator with
           | some pc => pc
           | none => []) == sliceCreator pat))
  || (isVRPattern pat && (e.vr == sliceVR pat))

/-- Python `str.split` on a single-character separator. -/
def splitOnChar (c : Char) : List Char → List (List Char)
  | [] => [[]]
  | x :: xs =>
    match splitOnChar c xs with
    | [] => [[x]]
    | h :: t => if x = c then [] :: h :: t else (x :: h) :: t

/-- Embedding of `_split_tag_path_pattern`: strip an optional `+/` or `*/`
prefix, return the `.`-separated step patterns and the prefix. -/
def split_tag_path_pattern (cs : List Char) : List (List Char) × List Char :=
  match cs with
  | a :: b :: rest =>
      if (a = '+' ∨ a = '*') ∧ b = '/' then (splitOnChar '.' rest, [a, b])
      else (splitOnChar '.' cs, [])
  | _ => (splitOnChar '.' cs, [])

/-- Embedding of `is_tag_path_pattern`: every step pattern must full-match one
of the four step-pattern regexes. -/
def is_tag_path_pattern (cs : List Char) : Bool :=
  (split_tag_path_pattern cs).1.all fun tp =>
    isKeywordPattern tp || isNumberPattern tp ||
    isPrivateCreatorPattern tp || isVRPattern tp

/-- Embedding of `_elem_sequence_match_tag_path_pattern`: the three prefix
depth guards (early `return False`), then the loop
`for i in range(1, len(tag_patterns)+1)` matching `elem_sequence[-i]` against
`tag_patterns[-i]`, written as a conjunction over the zipped reversed lists. -/
def elem_sequence_match_tag_path_pattern (elems : List PElem) (pat : List Char) :
    Bool :=
  if (split_tag_path_pattern pat).2 = [] ∧
      elems.length ≠ (split_tag_path_pattern pat).1.length then false
  else if (split_tag_path_pattern pat).2 = ['+', '/'] ∧
      ¬ elems.length > (split_tag_path_pattern pat).1.length then false
  else if (split_tag_path_pattern pat).2 = ['*', '/'] ∧
      ¬ elems.length ≥ (split_tag_path_pattern pat).1.length then false
  else
    (elems.reverse.zip (split_tag_path_pattern pat).1.reverse).all
      fun pr => elem_match_tag_pattern pr.1 pr.2

/-! ### Helper lemmas for tag-path patterns -/

lemma split_pfx_cases (cs : List Char) :
    (split_tag_path_pattern cs).2 = [] ∨
    (split_tag_path_pattern cs).2 = ['+', '/'] ∨
    (split_tag_path_pattern cs).2 = ['*', '/'] := by
  match cs with
  | [] => left; rfl
  | [a] => left; rfl
  | a :: b :: rest =>
    by_cases h : (a = '+' ∨ a = '*') ∧ b = '/'
    · obtain ⟨ha, hb⟩ := h
      subst hb
      rcases ha with ha | ha <;> subst ha
      · right; left; simp [split_tag_path_pattern]
      · right; right; simp [split_tag_path_pattern]
    · left; simp [split_tag_path_pattern, h]

lemma zipAll_iff {α β : Type} (f : α → β → Bool) (da : α) (db : β) :
    ∀ (bs : List β) (as2 : List α), bs.length ≤ as2.length →
    (((as2.zip bs).all fun p => f p.1 p.2) = true ↔
      ∀ i, i < bs.length → f (as2.getD i da) (bs.getD i db) = true) := by
  intro bs
  induction bs with
  | nil => intro as2 h; simp
  | cons b bs ih =>
    intro as2 h
    cases as2 with
    | nil => simp at h
    | cons a as3 =>
      simp only [List.length_cons] at h
      simp only [List.zip_cons_cons, List.all_cons, Bool.and_eq_true, List.length_cons]
      constructor
      · rintro ⟨hfa, hall⟩ i hi
        cases i with
        | zero => simpa using hfa
        | succ j =>
            have := (ih as3 (by omega)).mp hall j (by omega)
            simpa using this
      · intro hfor
        refine ⟨by simpa using hfor 0 (by omega), (ih as3 (by omega)).mpr ?_⟩
        intro j hj
        simpa using hfor (j + 1) (by omega)

/-- C5.  A location of depth `d` matches a pattern of body length `n` iff the
depth condition of the prefix holds (no prefix: `d = n`; `+/`: `d > n`; `*/`:
`d ≥ n`) and, pairing the last `n` elements of the location with the `n` step
patterns from right to left, every element matches its step pattern. -/
theorem tagPathPattern_depth_and_pairing (elems : List PElem) (pat : List Char) :
    elem_sequence_match_tag_path_pattern elems pat = true ↔
      (((split_tag_path_pattern pat).2 = [] ∧
          elems.length = (split_tag_path_pattern pat).1.length) ∨
       ((split_tag_path_pattern pat).2 = ['+', '/'] ∧
          elems.length > (split_tag_path_pattern pat).1.length) ∨
       ((split_tag_path_pattern pat).2 = ['*', '/'] ∧
          elems.length ≥ (split_tag_path_pattern pat).1.length)) ∧
      (∀ i, i < (split_tag_path_pattern pat).1.length →
        elem_match_tag_pattern (elems.reverse.getD i default)
          ((split_tag_path_pattern pat).1.reverse.getD i []) = true) := by
  have hz := zipAll_iff elem_match_tag_pattern default ([] : List Char)
    (split_tag_path_pattern pat).1.reverse elems.reverse
  rcases split_pfx_cases pat with hp | hp | hp
  · unfold elem_sequence_match_tag_path_pattern
    simp only [hp]
    by_cases hd : elems.length = (split_tag_path_pattern pat).1.length
    · have hz2 := hz (by simp [hd])
      simp only [List.length_reverse] at hz2
      rw [if_neg (by simp [hd]), if_neg (by simp), if_neg (by simp), hz2]
      constructor
      · intro h; exact ⟨Or.inl ⟨by trivial, hd⟩, h⟩
      · intro h; exact h.2
    · rw [if_pos ⟨by trivial, hd⟩]
      simp only [Bool.false_eq_true, false_iff]
      rintro ⟨hdisj, -⟩
      rcases hdisj with ⟨-, h⟩ | ⟨h, -⟩ | ⟨h, -⟩
      · exact hd h
      · simp at h
      · simp at h
  · unfold elem_sequence_match_tag_path_pattern
    simp only [hp]
    by_cases hd : elems.length > (split_tag_path_pattern pat).1.length
    · have hz2 := hz (by simp; omega)
      simp only [List.length_reverse] at hz2
      rw [if_neg (by simp), if_neg (by simp [hd]), if_neg (by simp), hz2]
      constructor
      · intro h; exact ⟨Or.inr (Or.inl ⟨by trivial, hd⟩), h⟩
      · intro h; exact h.2
    · rw [if_neg (by simp), if_pos ⟨by trivial, hd⟩]
      simp only [Bool.false_eq_true, false_iff]
      rintro ⟨hdisj, -⟩
      rcases hdisj with ⟨h, -⟩ | ⟨-, h⟩ | ⟨h, -⟩
      · simp at h
      · exact hd h
      · simp at h
  · unfold elem_sequence_match_tag_path_pattern
    simp only [hp]
    by_cases hd : elems.length ≥ (split_tag_path_pattern pat).1.length
    · have hz2 := hz (by simp [hd])
      simp only [List.length_reverse] at hz2
      rw [if_neg (by simp), if_neg (by simp), if_neg (by simp [hd]), hz2]
      constructor
      · intro h; exact ⟨Or.inr (Or.inr ⟨by trivial, hd⟩), h⟩
      · intro h; exact h.2
    · rw [if_neg (by simp), if_neg (by simp), if_pos ⟨by trivial, hd⟩]
      simp only [Bool.false_eq_true, false_iff]
      rintro ⟨hdisj, -⟩
      rcases hdisj with ⟨h, -⟩ | ⟨h, -⟩ | ⟨-, h⟩
      · simp at h
      · simp at h
      · exact hd h

/-- Witness for C5: the hex step pattern `0010XXXX` at top level matches the
element with tag `(0010,0203)` located at depth 1. -/
theorem tagPathPattern_depth_and_pairing_witness :
    elem_sequence_match_tag_path_pattern
      [PElem.mk [] 16 515 Option.none (String.toList "LO")]
      (String.toList "0010XXXX") = true :=
  (tagPathPattern_depth_and_pairing
    [PElem.mk [] 16 515 Option.none (String.toList "LO")]
    (String.toList "0010XXXX")).mpr (by decide)

/-! ### Case sensitivity of hex step patterns -/

lemma globMatch_no_star (p : List Char) (hstar : '*' ∉ p) :
    ∀ s : List Char, globMatch p s = decide (s = p) := by
  induction p with
  | nil =>
      intro s
      cases s <;> simp [globMatch]
  | cons c ps ih =>
      intro s
      have hc : c ≠ '*' := fun h => hstar (by simp [h])
      have hps : '*' ∉ ps := fun h => hstar (by simp [h])
      cases s with
      | nil => simp [globMatch, hc]
      | cons d ss =>
          rw [globMatch, if_neg hc]
          simp only [ih hps ss]
          by_cases hcd : d = c
          · subst hcd
            simp
          · have h1 : (c == d) = false := beq_eq_false_iff_ne.mpr (fun h => hcd h.symm)
            have h2 : (decide (d :: ss = c :: ps)) = false := by simp [hcd]
            rw [h1, h2, Bool.false_and]

/-- C7 (counterexample).  Hex matching is not case-insensitive: the lower-case
hex step pattern `0010abcd` does not match the keyword-less element with tag
`(0010,ABCD)`, while its upper-cased form `0010ABCD` does.  The lower-case
form fails `TAG_PATH_PATERN_NUMBER` (whose class is `[0-9A-FX@]`) and is
therefore never compared against the element's canonical hex tag. -/
theorem lowerHex_not_case_insensitive :
    elem_match_tag_pattern (PElem.mk [] 16 43981 Option.none (String.toList "LO"))
      (String.toList "0010abcd") = false ∧
    elem_match_tag_pattern (PElem.mk [] 16 43981 Option.none (String.toList "LO"))
      (String.toList "0010ABCD") = true := by
  constructor <;> rfl

/-- C7 (amended).  A step written with lower-case hex letters is accepted as a
valid tag path pattern, but only through the keyword alternative
`[A-Za-z0-9*]+`: as a step pattern it is interpreted as a keyword pattern and
matches exactly the elements whose dictionary keyword is literally that
string, not the elements whose hex tag matches its upper-cased form. -/
theorem lowerHex_valid_but_keyword_matched :
    is_tag_path_pattern (String.toList "0010abcd") = true ∧
    ∀ e : PElem, elem_match_tag_pattern e (String.toList "0010abcd") =
      (e.keyword == String.toList "0010abcd") := by
  constructor
  · rfl
  · intro e
    unfold elem_match_tag_pattern
    have hnum : isNumberPattern (String.toList "0010abcd") = false := rfl
    have hpriv : isPrivateCreatorPattern (String.toList "0010abcd") = false := rfl
    have hvr : isVRPattern (String.toList "0010abcd") = false := rfl
    have hkw : isKeywordPattern (String.toList "0010abcd") = true := rfl
    rw [hnum, hpriv, hvr, hkw]
    simp only [Bool.false_and, Bool.and_false, Bool.or_false, Bool.and_true]
    rw [globMatch_no_star (String.toList "0010abcd") (by decide) e.keyword]
    by_cases hk : e.keyword = String.toList "0010abcd"
    · rw [hk]
      rfl
    · have hk2 : e.keyword ≠ ['0', '0', '1', '0', 'a', 'b', 'c', 'd'] := hk
      simp [hk2]

/-! ## Tag paths and parent resolution
(`research_pacs/de_identifier/dicom_tag_path.py`, `enumerate_parent_elements`)

A dataset is an ordered mapping from integer tags to elements; an element is
either a non-sequence element (VR and scalar value) or a sequence (`VR = SQ`)
holding an ordered list of item datasets.  Tag-path steps are modelled
pre-parsed (`_parse_tag` yields the tag integer and the optional `[k]` or
`[%]` item index; keyword-to-tag translation goes through pydicom's data
dictionary, which is external to this repository). -/

inductive DNode where
  | leaf (vr : String) (value : String)
  | sq (items : List (List (Nat × DNode)))

abbrev DDataset := List (Nat × DNode)

/-- Dataset lookup by tag (`tag_int in ds` / `ds[tag_int]`). -/
def dsLookup : DDataset → Nat → Option DNode
  | [], _ => Option.none
  | (t, n) :: rest, tag => if t = tag then some n else dsLookup rest tag

/-- The optional item index of a tag-path step: `[k]` or `[%]`. -/
inductive IdxSpec where
  | num (k : Nat)
  | pct

/-- A pre-parsed tag-path step: tag integer plus optional item index. -/
structure TagStep where
  tag : Nat
  idx : Option IdxSpec

/-- Python list indexing `items[i]`; out of range raises `IndexError`. -/
def getItemE (items : List DDataset) (i : Nat) : Except String DDataset :=
  match items.get? i with
  | some v => Except.ok v
  | none => Except.error "IndexError: list index out of range"

mutual

/-- Embedding of `enumerate_parent_elements` for the path `step :: rest`: at
the last step, yield `(ds, tag)`; at a non-last step, require the tag to exist
and name a sequence, then iterate over the item indices selected by the
step's index — `range(len(items))` both for `[%]` and for an absent index,
`[k]` for an explicit index — recursing into each selected item.  The
generator's depth-first output order and its first-raised exception are
preserved. -/
def enumerate_parent_elements (ds : DDataset) (step : TagStep)
    (rest : List TagStep) : Except String (List (DDataset × Nat)) :=
  match rest with
  | [] => Except.ok [(ds, step.tag)]
  | s2 :: rs =>
    match dsLookup ds step.tag with
    | Option.none => Except.error "The tag does not exist in the tag path"
    | some (DNode.leaf _ _) => Except.error "The tag must be a sequence"
    | some (DNode.sq items) =>
        enumerate_items items
          (match step.idx with
           | some (IdxSpec.num k) => [k]
           | _ => List.range items.length) s2 rs

/-- The `for i in items_range: yield from ...` loop of
`enumerate_parent_elements`. -/
def enumerate_items (items : List DDataset) (idxs : List Nat) (s2 : TagStep)
    (rs : List TagStep) : Except String (List (DDataset × Nat)) :=
  match idxs with
  | [] => Except.ok []
  | i :: is2 =>
    match getItemE items i with
    | Except.error e => Except.error e
    | Except.ok item =>
      match enumerate_parent_elements item s2 rs with
      | Except.error e => Except.error e
      | Except.ok l =>
        match enumerate_items items is2 s2 rs with
        | Except.error e => Except.error e
        | Except.ok l2 => Except.ok (l ++ l2)

end

/-- C6 (counterexample).  A non-last step with no `[k]`/`[%]` suffix naming a
sequence with two items: resolution does not fail; it proceeds through both
items and yields two parents.  (The dataset holds tag 8 with a two-item
sequence; the path is step 8 followed by last step 9.) -/
theorem noSuffix_two_items_proceeds :
    enumerate_parent_elements [(8, DNode.sq [[], []])]
      (TagStep.mk 8 Option.none) [TagStep.mk 9 Option.none] =
      Except.ok [([], 9), ([], 9)] := by
  have hr : List.range 2 = [0, 1] := rfl
  simp [enumerate_parent_elements.eq_def, enumerate_items.eq_def, dsLookup, getItemE, hr]

/-- C6 (amended).  A non-last step that carries no `[k]` or `[%]` suffix is
treated exactly like `[%]`, whatever the number of items of the sequence it
names: the two calls are equal on every dataset, so resolution never fails
because of the item count (an empty sequence simply yields no parents). -/
theorem noSuffix_treated_as_all_items (ds : DDataset) (t : Nat) (s2 : TagStep)
    (rs : List TagStep) :
    enumerate_parent_elements ds (TagStep.mk t Option.none) (s2 :: rs) =
    enumerate_parent_elements ds (TagStep.mk t (some IdxSpec.pct)) (s2 :: rs) := by
  rw [enumerate_parent_elements.eq_def, enumerate_parent_elements.eq_def]

/-! ## Pixel masking (`research_pacs/de_identifier/dicom.py`,
`apply_transformations`, RemoveBurnedInAnnotations)

A mask of ones with the spatial shape of the pixel array is built; for each
rectangle `(left, top, right, bottom)` the coordinates are clamped with
`max(0, min(width-1, .))` / `max(0, min(height-1, .))` and the half-open
slices `[top:bottom, left:right]` of the mask are set to 0; finally
`new_pixels = mask * pixels`.  In every one of the four supported shapes
(`(Y,X)`, `(Y,X,channel)`, `(frames,Y,X)`, `(frames,Y,X,channel)`) the mask
varies only over the two spatial axes (the frame and channel axes of the mask
have extent 1 and broadcast), so it is modelled as a function of `(y, x)`;
pixel arrays are modelled as total functions from (integer) indices to pixel
values. -/

structure Rect where
  left : Int
  top : Int
  right : Int
  bottom : Int

/-- Python `max(0, min(hi, v))`. -/
def pyClamp (hi v : Int) : Int := max 0 (min hi v)

/-- Whether the slice assignment for rectangle `r` writes a zero at spatial
position `(y, x)` of a `width × height` mask (slices exclude their end
index). -/
def maskZeroAt (width height : Nat) (r : Rect) (y x : Int) : Bool :=
  decide (pyClamp ((height : Int) - 1) r.top ≤ y) &&
  decide (y < pyClamp ((height : Int) - 1) r.bottom) &&
  decide (pyClamp ((width : Int) - 1) r.left ≤ x) &&
  decide (x < pyClamp ((width : Int) - 1) r.right)

/-- The mask after starting from all ones and processing every rectangle in
order. -/
def buildMask (width height : Nat) (rects : List Rect) : Int → Int → Nat :=
  rects.foldl
    (fun m r => fun y x => if maskZeroAt width height r y x then 0 else m y x)
    (fun _ _ => 1)

/-- `new_pixels = mask * pixels` for shape `(Y, X)`. -/
def applyMask2D (width height : Nat) (rects : List Rect)
    (pix : Int → Int → Nat) : Int → Int → Nat :=
  fun y x => buildMask width height rects y x * pix y x

/-- `new_pixels = mask * pixels` for shape `(frames, Y, X)` (mask shape
`(1, H, W)` broadcasts over frames). -/
def applyMask3DFrames (width height : Nat) (rects : List Rect)
    (pix : Int → Int → Int → Nat) : Int → Int → Int → Nat :=
  fun f y x => buildMask width height rects y x * pix f y x

/-- `new_pixels = mask * pixels` for shape `(Y, X, channel)` (mask shape
`(H, W, 1)` broadcasts over channels). -/
def applyMask3DChannels (width height : Nat) (rects : List Rect)
    (pix : Int → Int → Int → Nat) : Int → Int → Int → Nat :=
  fun y x c => buildMask width height rects y x * pix y x c

/-- `new_pixels = mask * pixels` for shape `(frames, Y, X, channel)` (mask
shape `(1, H, W, 1)` broadcasts over frames and channels). -/
def applyMask4D (width height : Nat) (rects : List Rect)
    (pix : Int → Int → Int → Int → Nat) : Int → Int → Int → Int → Nat :=
  fun f y x c => buildMask width height rects y x * pix f y x c

/-! ### Mask characterization -/

lemma buildMask_eq_any (width height : Nat) (rects : List Rect) (y x : Int) :
    buildMask width height rects y x =
      (if rects.any (fun r => maskZeroAt width height r y x) then 0 else 1) := by
  unfold buildMask
  suffices h : ∀ (m : Int → Int → Nat),
      (rects.foldl
        (fun m r => fun y x => if maskZeroAt width height r y x then 0 else m y x)
        m) y x =
      (if rects.any (fun r => maskZeroAt width height r y x) then 0 else m y x) by
    exact h (fun _ _ => 1)
  induction rects with
  | nil => intro m; simp
  | cons r rs ih =>
      intro m
      simp only [List.foldl_cons, List.any_cons, ih]
      by_cases h1 : maskZeroAt width height r y x = true
      · simp [h1]
      · simp [h1]

lemma buildMask_mul_self (width height : Nat) (rects : List Rect) (y x : Int) :
    buildMask width height rects y x * buildMask width height rects y x =
      buildMask width height rects y x := by
  rw [buildMask_eq_any]
  by_cases h : rects.any (fun r => maskZeroAt width height r y x) = true
  · simp [h]
  · simp [h]

lemma maskZeroAt_last_col (width height : Nat) (r : Rect) (y : Int) :
    maskZeroAt width height r y ((width : Int) - 1) = false := by
  unfold maskZeroAt pyClamp
  cases width with
  | zero =>
      have h : ¬ max 0 (min ((0 : Int) - 1) r.left) ≤ (0 : Int) - 1 := by
        have := le_max_left (0 : Int) (min ((0 : Int) - 1) r.left)
        omega
      simp [h]
  | succ w =>
      have h : ¬ ((w.succ : Int) - 1 < max 0 (min ((w.succ : Int) - 1) r.right)) := by
        have h1 : min ((w.succ : Int) - 1) r.right ≤ (w.succ : Int) - 1 :=
          min_le_left _ _
        have h2 : (0 : Int) ≤ (w.succ : Int) - 1 := by
          have : (1 : Int) ≤ (w.succ : Int) := by exact_mod_cast Nat.succ_le_succ (Nat.zero_le w)
          omega
        have h3 : max 0 (min ((w.succ : Int) - 1) r.right) ≤ (w.succ : Int) - 1 :=
          max_le h2 h1
        omega
      simp [h]

lemma maskZeroAt_last_row (width height : Nat) (r : Rect) (x : Int) :
    maskZeroAt width height r ((height : Int) - 1) x = false := by
  unfold maskZeroAt pyClamp
  cases height with
  | zero =>
      have h : ¬ max 0 (min ((0 : Int) - 1) r.top) ≤ (0 : Int) - 1 := by
        have := le_max_left (0 : Int) (min ((0 : Int) - 1) r.top)
        omega
      simp [h]
  | succ hgt =>
      have h : ¬ ((hgt.succ : Int) - 1 < max 0 (min ((hgt.succ : Int) - 1) r.bottom)) := by
        have h1 : min ((hgt.succ : Int) - 1) r.bottom ≤ (hgt.succ : Int) - 1 :=
          min_le_left _ _
        have h2 : (0 : Int) ≤ (hgt.succ : Int) - 1 := by
          have : (1 : Int) ≤ (hgt.succ : Int) := by
            exact_mod_cast Nat.succ_le_succ (Nat.zero_le hgt)
          omega
        have h3 : max 0 (min ((hgt.succ : Int) - 1) r.bottom) ≤ (hgt.succ : Int) - 1 :=
          max_le h2 h1
        omega
      simp [h]

lemma buildMask_last_col (width height : Nat) (rects : List Rect) (y : Int) :
    buildMask width height rects y ((width : Int) - 1) = 1 := by
  rw [buildMask_eq_any]
  have h : rects.any (fun r => maskZeroAt width height r y ((width : Int) - 1)) = false := by
    rw [List.any_eq_false]
    intro r _
    simp [maskZeroAt_last_col]
  simp [h]

lemma buildMask_last_row (width height : Nat) (rects : List Rect) (x : Int) :
    buildMask width height rects ((height : Int) - 1) x = 1 := by
  rw [buildMask_eq_any]
  have h : rects.any (fun r => maskZeroAt width height r ((height : Int) - 1) x) = false := by
    rw [List.any_eq_false]
    intro r _
    simp [maskZeroAt_last_row]
  simp [h]

/-- C9.  Masking is idempotent on every one of the four supported pixel-array
shapes: applying the mask-and-multiply step for a fixed rectangle set twice
yields the same pixel array as applying it once (every mask value is 0 or 1,
so `mask * (mask * pix) = mask * pix`). -/
theorem pixelMasking_idempotent (width height : Nat) (rects : List Rect) :
    (∀ pix : Int → Int → Nat,
      applyMask2D width height rects (applyMask2D width height rects pix) =
        applyMask2D width height rects pix) ∧
    (∀ pix : Int → Int → Int → Nat,
      applyMask3DFrames width height rects (applyMask3DFrames width height rects pix) =
        applyMask3DFrames width height rects pix) ∧
    (∀ pix : Int → Int → Int → Nat,
      applyMask3DChannels width height rects (applyMask3DChannels width height rects pix) =
        applyMask3DChannels width height rects pix) ∧
    (∀ pix : Int → Int → Int → Int → Nat,
      applyMask4D width height rects (applyMask4D width height rects pix) =
        applyMask4D width height rects pix) := by
  refine ⟨?_, ?_, ?_, ?_⟩
  · intro pix
    funext y x
    unfold applyMask2D
    rw [← Nat.mul_assoc, buildMask_mul_self]
  · intro pix
    funext f y x
    unfold applyMask3DFrames
    rw [← Nat.mul_assoc, buildMask_mul_self]
  · intro pix
    funext y x c
    unfold applyMask3DChannels
    rw [← Nat.mul_assoc, buildMask_mul_self]
  · intro pix
    funext f y x c
    unfold applyMask4D
    rw [← Nat.mul_assoc, buildMask_mul_self]

/-- C10.  Pixels in the last column (`x = width - 1`) and in the last row
(`y = height - 1`) are never zeroed: the clamping to `width-1` / `height-1`
together with the half-open slices keeps the mask equal to 1 there, so those
pixels keep their original values in every supported shape. -/
theorem lastRowCol_never_zeroed (width height : Nat) (rects : List Rect)
    (y x f c : Int) (pix2 : Int → Int → Nat) (pix3f pix3c : Int → Int → Int → Nat)
    (pix4 : Int → Int → Int → Int → Nat) :
    buildMask width height rects y ((width : Int) - 1) = 1 ∧
    buildMask width height rects ((height : Int) - 1) x = 1 ∧
    applyMask2D width height rects pix2 y ((width : Int) - 1) =
      pix2 y ((width : Int) - 1) ∧
    applyMask2D width height rects pix2 ((height : Int) - 1) x =
      pix2 ((height : Int) - 1) x ∧
    applyMask3DFrames width height rects pix3f f y ((width : Int) - 1) =
      pix3f f y ((width : Int) - 1) ∧
    applyMask3DFrames width height rects pix3f f ((height : Int) - 1) x =
      pix3f f ((height : Int) - 1) x ∧
    applyMask3DChannels width height rects pix3c y ((width : Int) - 1) c =
      pix3c y ((width : Int) - 1) c ∧
    applyMask3DChannels width height rects pix3c ((height : Int) - 1) x c =
      pix3c ((height : Int) - 1) x c ∧
    applyMask4D width height rects pix4 f y ((width : Int) - 1) c =
      pix4 f y ((width : Int) - 1) c ∧
    applyMask4D width height rects pix4 f ((height : Int) - 1) x c =
      pix4 f ((height : Int) - 1) x c := by
  refine ⟨buildMask_last_col _ _ _ _, buildMask_last_row _ _ _ _, ?_, ?_, ?_, ?_, ?_, ?_, ?_, ?_⟩
  all_goals
    first
    | (unfold applyMask2D; rw [buildMask_last_col]; exact Nat.one_mul _)
    | (unfold applyMask2D; rw [buildMask_last_row]; exact Nat.one_mul _)
    | (unfold applyMask3DFrames; rw [buildMask_last_col]; exact Nat.one_mul _)
    | (unfold applyMask3DFrames; rw [buildMask_last_row]; exact Nat.one_mul _)
    | (unfold applyMask3DChannels; rw [buildMask_last_col]; exact Nat.one_mul _)
    | (unfold applyMask3DChannels; rw [buildMask_last_row]; exact Nat.one_mul _)
    | (unfold applyMask4D; rw [buildMask_last_col]; exact Nat.one_mul _)
    | (unfold applyMask4D; rw [buildMask_last_row]; exact Nat.one_mul _)
